import Mathlib

/-!
Verification development for the cof distributed version control core.

The definitions below are a shallow embedding of the Python sources
src/cof/remote.py and src/cof/server.py (clone/pull graph synchronizer,
path filter, server packet dispatcher), plus a model of the packet codec
(cof/network.py is not part of the given sources; the codec is modelled
from the specification, as marked on the relevant definitions).

Conventions of the embedding:
 - Python byte strings and hashes are Lean Strings (codec bytes are List
   Nat); network failures and falsy values collapse to Option.none
   exactly where the source tests truthiness.
 - Python exceptions (click.ClickException) are an error component of
   type Option String carried next to the state, because the mutable
   visited set and the already-issued network requests survive the
   exception in the source.
 - The set of network calls made is recorded as a trace, so theorems
   about deduplication and about calls never issued are statements about
   the trace.
 - The recursion of _fetch_objects_recursive follows the parent chain of
   the remote object graph; the embedding adds a fuel parameter to make
   it structurally terminating.  Theorems quantify over sufficient fuel.
-/

/-! ### Shell-style glob matching (Python fnmatch, POSIX case rules)

The source filter _matches_filter delegates to fnmatch.fnmatch.  On a
POSIX system fnmatch does full-string matching where a star matches any
run of characters (including slashes), a question mark matches one
character, and brackets introduce a character class with optional
leading bang negation, a literal closing bracket allowed first, and
dash ranges except at the ends; an unclosed bracket is a literal. -/

/-- Index of the first closing bracket in the remaining pattern, if any. -/
def findCloseIdx : List Char → Nat → Option Nat
  | [], _ => none
  | ']' :: _, i => some i
  | _ :: rest, i => findCloseIdx rest (i + 1)

/-- Scan a character class that begins right after an opening bracket:
returns the raw class body (still containing a possible leading bang)
and the rest of the pattern after the closing bracket, or none when the
bracket is unclosed.  A bang and a closing bracket in the first
positions are part of the body, as in fnmatch.translate. -/
def classScan (ps : List Char) : Option (List Char × List Char) :=
  let skip1 : Nat := match ps with
    | '!' :: _ => 1
    | _ => 0
  let skip2 : Nat := match ps.drop skip1 with
    | ']' :: _ => skip1 + 1
    | _ => skip1
  match findCloseIdx (ps.drop skip2) 0 with
  | none => none
  | some j => some (ps.take (skip2 + j), ps.drop (skip2 + j + 1))

/-- The rest of the pattern returned by classScan is no longer than its
input, which makes the glob matcher structurally terminating. -/
theorem classScan_length (ps body rest : List Char)
    (h : classScan ps = some (body, rest)) : rest.length ≤ ps.length := by
  unfold classScan at h
  simp only at h
  split at h
  · exact absurd h (by simp)
  · simp only [Option.some.injEq, Prod.mk.injEq] at h
    obtain ⟨-, h2⟩ := h
    subst h2
    simp [List.length_drop]

/-- Match one character against the items of a class body: a dash forms
a range unless it sits at either end of the body. -/
def classBodyMatch (c : Char) : List Char → Bool
  | a :: '-' :: b :: rest => (a ≤ c && c ≤ b) || classBodyMatch c rest
  | a :: rest => (a == c) || classBodyMatch c rest
  | [] => false

/-- Match one character against a full class body, honouring a leading
bang as negation. -/
def classMatch (body : List Char) (c : Char) : Bool :=
  match body with
  | '!' :: rest => ! classBodyMatch c rest
  | _ => classBodyMatch c body

/-- Full-string glob match of a pattern against a name, both as
character lists, with Python fnmatch semantics.  Every recursive call
strictly decreases the summed length of pattern and name (for the class
case by classScan_length), so the fuel parameter is only a structural
termination device: with fuel above that sum the fuel never runs out. -/
def globMatchF : Nat → List Char → List Char → Bool
  | 0, _, _ => false
  | fuel + 1, pattern, s =>
    match pattern, s with
    | [], s => s.isEmpty
    | '*' :: ps, s =>
      globMatchF fuel ps s ||
        (match s with
         | [] => false
         | _ :: s' => globMatchF fuel ('*' :: ps) s')
    | '?' :: ps, s =>
      (match s with
       | [] => false
       | _ :: s' => globMatchF fuel ps s')
    | '[' :: ps, s =>
      (match classScan ps with
       | some (body, rest) =>
         (match s with
          | [] => false
          | c :: s' => classMatch body c && globMatchF fuel rest s')
       | none =>
         (match s with
          | '[' :: s' => globMatchF fuel ps s'
          | _ => false))
    | p :: ps, s =>
      (match s with
       | c :: s' => (p == c) && globMatchF fuel ps s'
       | [] => false)

/-- Full-string glob match with the fuel fixed at a provably sufficient
value: every recursive call of globMatchF lowers the summed length of
pattern and name by at least one (for the class case by
classScan_length) while spending exactly one unit of fuel, so starting
above that sum the fuel-exhaustion branch is unreachable. -/
def globMatch (pattern s : List Char) : Bool :=
  globMatchF (pattern.length + s.length + 1) pattern s

/-- Python fnmatch.fnmatch on POSIX: full-string glob match. -/
def fnmatchB (name pat : String) : Bool :=
  globMatch pat.data name.data

example : fnmatchB "abc" "a*c" = true := by decide
example : fnmatchB "a/b/c" "a*c" = true := by decide
example : fnmatchB "abc" "a?c" = true := by decide
example : fnmatchB "abc" "a?d" = false := by decide
example : fnmatchB "abc" "a[b-d]c" = true := by decide
example : fnmatchB "aec" "a[b-d]c" = false := by decide
example : fnmatchB "aec" "a[!b-d]c" = true := by decide
example : fnmatchB "a]c" "a[]]c" = true := by decide
example : fnmatchB "a[c" "a[c" = true := by decide
example : fnmatchB "x" "*" = true := by decide
example : fnmatchB "" "*" = true := by decide

/-! ### String helpers mirroring the Python operations in _matches_filter -/

/-- Python path.startswith(p). -/
def startsWithStr (s p : String) : Bool :=
  p.data.isPrefixOf s.data

/-- Python s.rstrip of slashes. -/
def rstripSlash (s : String) : String :=
  String.mk ((s.data.reverse.dropWhile (fun c => c == '/')).reverse)

/-- Python s.lstrip of slashes. -/
def lstripSlash (s : String) : String :=
  String.mk (s.data.dropWhile (fun c => c == '/'))

/-- Helper for splitting on a double star: accumulates the current chunk. -/
def splitTwoStars : List Char → List Char → List String
  | '*' :: '*' :: rest, acc => String.mk acc.reverse :: splitTwoStars rest []
  | c :: rest, acc => splitTwoStars rest (c :: acc)
  | [], acc => [String.mk acc.reverse]

/-- Python filter_pattern.split of the two-character separator of two
stars: non-overlapping occurrences, scanned left to right. -/
def splitDoubleStar (s : String) : List String :=
  splitTwoStars s.data []

/-- Rejoin chunks with the two-star separator (used to express the
split at the first occurrence in terms of the full split). -/
def joinTwoStars : List String → String
  | [] => ""
  | [x] => x
  | x :: rest => x ++ "**" ++ joinTwoStars rest

/-- Python substring membership test of the two-star separator. -/
def containsDoubleStar (s : String) : Bool :=
  2 ≤ (splitDoubleStar s).length

/-- posixpath.join of two path components, as used for child paths. -/
def pathJoin (a b : String) : String :=
  if b.data.head? = some '/' then b
  else if a = "" then b
  else if a.data.getLast? = some '/' then a ++ b
  else a ++ "/" ++ b

/-- The child path of a tree entry: os.path.join(current_path,
entry_name) if current_path else entry_name, from _fetch_tree_recursive. -/
def childPath (currentPath entryName : String) : String :=
  if currentPath ≠ "" then pathJoin currentPath entryName else entryName

/-- First-match lookup in an association list, mirroring dict.get on the
JSON-decoded refs mapping. -/
def lookupStr : List (String × String) → String → Option String
  | [], _ => none
  | (a, b) :: rest, k => if a = k then some b else lookupStr rest k

/-! ### The path filter (RemoteOperations._matches_filter, remote.py 268-282)

The source splits the pattern at every occurrence of the double star and
only applies the prefix/suffix logic when that split has exactly two
parts; any other shape falls through to plain fnmatch. -/

/-- RemoteOperations._matches_filter from remote.py, line for line: the
outer test is Python substring membership of the double star, the split
is Python str.split, and the fallthrough for a split that does not have
exactly two parts is the final plain fnmatch. -/
def matchesFilter (path fp : String) : Bool :=
  if containsDoubleStar fp then
    match splitDoubleStar fp with
    | [pre, suf] =>
      if (pre != "") && ! startsWithStr path (rstripSlash pre) then false
      else if suf != "" then fnmatchB path ("*" ++ lstripSlash suf)
      else true
    | _ => fnmatchB path fp
  else fnmatchB path fp

/-- The path-filter predicate as claim C7 words it: whenever the double
star is present the pattern is split at its FIRST occurrence into a
prefix and a suffix (the suffix keeps any later double stars), the path
must start with the prefix with trailing slashes stripped, and a
nonempty suffix must match as a suffix glob. -/
def claimMatchesFilter (path fp : String) : Bool :=
  match splitDoubleStar fp with
  | [] => fnmatchB path fp
  | [_] => fnmatchB path fp
  | pre :: rest =>
    startsWithStr path (rstripSlash pre) &&
      ((joinTwoStars rest == "") ||
        fnmatchB path ("*" ++ lstripSlash (joinTwoStars rest)))

/-- The amended C7 predicate: like the claim, but the prefix/suffix
reading applies only when the pattern contains exactly one double star;
with zero or with two or more double stars, plain glob matching of the
whole pattern applies. -/
def amendedMatchesFilter (path fp : String) : Bool :=
  match splitDoubleStar fp with
  | [pre, suf] =>
    if (pre != "") && ! startsWithStr path (rstripSlash pre) then false
    else if suf != "" then fnmatchB path ("*" ++ lstripSlash suf)
    else true
  | _ => fnmatchB path fp

example : matchesFilter "docs/b.md" "docs/*" = true := by decide
example : matchesFilter "src/a.txt" "docs/*" = false := by decide
example : matchesFilter "src/x/y/a.py" "src/**/*.py" = true := by decide
example : matchesFilter "ax/q/bc" "a*/**/b**c" = true := by decide
example : claimMatchesFilter "ax/q/bc" "a*/**/b**c" = false := by decide

/-! ### Graph synchronizer state (remote.py RemoteOperations)

The JSON object dictionaries fetched from the remote are duck-typed in
the source: a commit is recognized by its parent and tree_root keys, a
tree by its entries key, a blob by its block_hashes key.  The embedding
keeps those four optional fields.  For the parent field the source
tests key presence AND truthiness, so an absent key and a falsy value
both map to none; for tree_root, entries and block_hashes the source
tests key presence only, so none means exactly an absent key. -/

/-- One tree entry value: the source reads entry_data of a tree's
entries mapping, which carries a kind (file or dir) and a hash; the
fetch code only ever reads the hash. -/
structure EntryData where
  kind : String
  hash : String
deriving DecidableEq

/-- A JSON object dictionary as fetched by request_object. -/
structure ObjDict where
  parent : Option String := none
  tree_root : Option String := none
  entries : Option (List (String × EntryData)) := none
  block_hashes : Option (List String) := none
deriving DecidableEq

/-- The remote peer as seen through the NetworkClient: request_object
and request_block either return data or nothing (a missing hash, a
network failure and a falsy payload are all indistinguishable at the
call sites, which test truthiness). -/
structure Remote where
  objects : String → Option ObjDict
  blocks : String → Option String

/-- One network call issued by the synchronizer: request_object or
request_block with the given hash. -/
inductive Req
  | obj (h : String)
  | blk (h : String)
deriving DecidableEq

/-- The hash a request carries. -/
def reqHash : Req → String
  | .obj h => h
  | .blk h => h

/-- The mutable state of one fetch traversal: the visited set of hashes
(the source's fetched set), the ordered trace of network requests
issued, and the warnings echoed so far.  Python mutates the set in
place, so the state survives a raised exception; accordingly the fetch
functions return the state together with an optional error instead of
failing inside an Except monad. -/
structure FetchSt where
  fetched : List String
  trace : List Req
  warnings : List String
deriving DecidableEq

/-- The inner block loop of _fetch_tree_recursive (remote.py 251-266):
for each block hash not yet fetched, request the block (abort the
traversal if nothing comes back), mark it fetched, store it, and echo a
warning when the hash assigned by the store differs from the advertised
hash — the source only warns and continues.  storeBlock is the external
store contract store_block(data, commit_seq); the source always passes
commit_seq = 0 here. -/
def fetchBlocksLoop (storeBlock : String → Nat → String) (remote : Remote)
    (blockHashes : List String) (st : FetchSt) : FetchSt × Option String :=
  match blockHashes with
  | [] => (st, none)
  | bh :: rest =>
    if bh ∈ st.fetched then
      fetchBlocksLoop storeBlock remote rest st
    else
      match remote.blocks bh with
      | none =>
        ({ st with trace := st.trace ++ [Req.blk bh] },
         some ("Failed to fetch block " ++ bh))
      | some blockData =>
        fetchBlocksLoop storeBlock remote rest
          (if storeBlock blockData 0 ≠ bh then
            { fetched := bh :: st.fetched, trace := st.trace ++ [Req.blk bh],
              warnings := st.warnings ++
                ["Warning: Block hash mismatch: " ++ storeBlock blockData 0
                  ++ " != " ++ bh] }
          else
            { fetched := bh :: st.fetched, trace := st.trace ++ [Req.blk bh],
              warnings := st.warnings })

/-- The entry loop of _fetch_tree_recursive (remote.py 230-266).  Each
entry is skipped when a nonempty path filter rejects its child path;
otherwise the entry's hash is fetched as a single object and, when the
fetched dictionary has block hashes, its blocks are fetched.  The
source never inspects entry_data.kind and never recurses into a
subtree: a dir entry is handled exactly like a file entry. -/
def fetchEntriesLoop (storeBlock : String → Nat → String) (remote : Remote)
    (pathFilter : Option String) (currentPath : String)
    (entries : List (String × EntryData)) (st : FetchSt) : FetchSt × Option String :=
  match entries with
  | [] => (st, none)
  | entry :: rest =>
    if (match pathFilter with
        | some pf => (pf != "") && ! matchesFilter (childPath currentPath entry.1) pf
        | none => false) then
      fetchEntriesLoop storeBlock remote pathFilter currentPath rest st
    else if entry.2.hash ∈ st.fetched then
      fetchEntriesLoop storeBlock remote pathFilter currentPath rest st
    else
      match remote.objects entry.2.hash with
      | none =>
        ({ st with trace := st.trace ++ [Req.obj entry.2.hash] },
         some ("Failed to fetch blob " ++ entry.2.hash))
      | some blobDict =>
        match blobDict.block_hashes with
        | some bhs =>
          (match fetchBlocksLoop storeBlock remote bhs
              { fetched := entry.2.hash :: st.fetched,
                trace := st.trace ++ [Req.obj entry.2.hash],
                warnings := st.warnings } with
           | (st2, some e) => (st2, some e)
           | (st2, none) => fetchEntriesLoop storeBlock remote pathFilter currentPath rest st2)
        | none =>
          fetchEntriesLoop storeBlock remote pathFilter currentPath rest
            { fetched := entry.2.hash :: st.fetched,
              trace := st.trace ++ [Req.obj entry.2.hash],
              warnings := st.warnings }

/-- RemoteOperations._fetch_tree_recursive (remote.py 210-266): return
early when the tree hash is already fetched, request the tree object
(abort when nothing comes back — the hash joins the fetched set only
after the request succeeds), then run the entry loop when the
dictionary has entries. -/
def fetchTreeRecursive (storeBlock : String → Nat → String) (remote : Remote)
    (treeHash : String) (st : FetchSt) (pathFilter : Option String)
    (currentPath : String) : FetchSt × Option String :=
  if treeHash ∈ st.fetched then (st, none)
  else
    match remote.objects treeHash with
    | none =>
      ({ st with trace := st.trace ++ [Req.obj treeHash] },
       some ("Failed to fetch tree " ++ treeHash))
    | some treeDict =>
      match treeDict.entries with
      | some es =>
        fetchEntriesLoop storeBlock remote pathFilter currentPath es
          { fetched := treeHash :: st.fetched,
            trace := st.trace ++ [Req.obj treeHash],
            warnings := st.warnings }
      | none =>
        ({ fetched := treeHash :: st.fetched,
           trace := st.trace ++ [Req.obj treeHash],
           warnings := st.warnings }, none)

/-- The sequencing at the end of _fetch_objects_recursive: when the
parent step raised, the exception propagates and the tree walk is
skipped; otherwise the tree root is walked when its key is present. -/
def thenTree (storeBlock : String → Nat → String) (remote : Remote)
    (pathFilter : Option String) (treeRoot : Option String) :
    FetchSt × Option String → FetchSt × Option String
  | (st3, some e) => (st3, some e)
  | (st3, none) =>
    match treeRoot with
    | some tr => fetchTreeRecursive storeBlock remote tr st3 pathFilter ""
    | none => (st3, none)

/-- RemoteOperations._fetch_objects_recursive (remote.py 176-208):
return early when the hash is already fetched, add it to the fetched
set BEFORE requesting (the source adds on line 187 and requests on line
190), abort when nothing comes back, then recurse into the parent when
the parent field is present and truthy and the shallow-clone bound
admits it (depth is None or current_depth < depth - 1), and finally
walk the tree root when that key is present (thenTree).  The fuel
bounds the parent-chain recursion for termination; the source
recursion is bounded by the finite acyclic remote graph. -/
def fetchObjectsRecursive (storeBlock : String → Nat → String) (remote : Remote)
    (fuel : Nat) (objectHash : String) (st : FetchSt) (depth : Option Int)
    (currentDepth : Int) (pathFilter : Option String) : FetchSt × Option String :=
  if objectHash ∈ st.fetched then (st, none)
  else
    match fuel with
    | 0 => (st, some "recursion limit exceeded")
    | fuel' + 1 =>
      match remote.objects objectHash with
      | none =>
        ({ fetched := objectHash :: st.fetched,
           trace := st.trace ++ [Req.obj objectHash],
           warnings := st.warnings },
         some ("Failed to fetch object " ++ objectHash))
      | some objDict =>
        thenTree storeBlock remote pathFilter objDict.tree_root
          (match objDict.parent with
           | some parentHash =>
             (match depth with
              | none =>
                fetchObjectsRecursive storeBlock remote fuel' parentHash
                  { fetched := objectHash :: st.fetched,
                    trace := st.trace ++ [Req.obj objectHash],
                    warnings := st.warnings }
                  depth (currentDepth + 1) pathFilter
              | some d =>
                if currentDepth < d - 1 then
                  fetchObjectsRecursive storeBlock remote fuel' parentHash
                    { fetched := objectHash :: st.fetched,
                      trace := st.trace ++ [Req.obj objectHash],
                      warnings := st.warnings }
                    depth (currentDepth + 1) pathFilter
                else
                  ({ fetched := objectHash :: st.fetched,
                     trace := st.trace ++ [Req.obj objectHash],
                     warnings := st.warnings }, none))
           | none =>
             ({ fetched := objectHash :: st.fetched,
                trace := st.trace ++ [Req.obj objectHash],
                warnings := st.warnings }, none))

/-- Outcome of clone_repository: whether it returned True, which ref
files were written under refs/heads, and the trace of object/block
requests issued. -/
structure CloneResult where
  ok : Bool
  refsWritten : List (String × String)
  trace : List Req
deriving DecidableEq

/-- RemoteOperations.clone_repository (remote.py 98-174), from the
handshake on: a failed handshake, an empty refs mapping, or a missing
or falsy main ref each raise, the surrounding try/except catches and
returns False; otherwise the recursive fetch of the main commit runs
from an empty fetched set, and only when it raises no error are all ref
files written and True returned.  The refs mapping is the decoded
result of request_refs; directory setup, config loading and the final
working-tree restore are external to the synchronizer. -/
def cloneRepository (storeBlock : String → Nat → String) (remote : Remote)
    (handshakeOk : Bool) (refs : List (String × String)) (depth : Option Int)
    (pathFilter : Option String) (fuel : Nat) : CloneResult :=
  if ! handshakeOk then ⟨false, [], []⟩
  else if refs.isEmpty then ⟨false, [], []⟩
  else
    match lookupStr refs "main" with
    | none => ⟨false, [], []⟩
    | some mainCommit =>
      if mainCommit = "" then ⟨false, [], []⟩
      else
        match fetchObjectsRecursive storeBlock remote fuel mainCommit ⟨[], [], []⟩
            depth 0 pathFilter with
        | (st, some _) => ⟨false, [], st.trace⟩
        | (st, none) => ⟨true, refs, st.trace⟩

/-- Outcome of pull_from_remote: whether it returned True, the ref file
written (branch and commit) if any, whether the working tree was
restored, and the trace of object/block requests issued. -/
structure PullResult where
  ok : Bool
  refWritten : Option (String × String)
  restoredWorkingTree : Bool
  trace : List Req
deriving DecidableEq

/-- RemoteOperations.pull_from_remote (remote.py 381-424): a missing
remote, a failed handshake or a missing/falsy remote branch ref each
raise and the try/except returns False; when the remote commit equals
the local head commit the source echoes Already up to date and returns
True before any fetch, ref write or working-tree restore; otherwise the
recursive fetch runs (depth None, no path filter) and only on success
is the branch ref written, the working tree restored and True
returned. -/
def pullFromRemote (storeBlock : String → Nat → String) (remote : Remote)
    (remoteFound handshakeOk : Bool) (refs : List (String × String))
    (branch : String) (localHead : Option String) (fuel : Nat) : PullResult :=
  if ! remoteFound then ⟨false, none, false, []⟩
  else if ! handshakeOk then ⟨false, none, false, []⟩
  else
    match lookupStr refs branch with
    | none => ⟨false, none, false, []⟩
    | some remoteCommit =>
      if remoteCommit = "" then ⟨false, none, false, []⟩
      else if localHead = some remoteCommit then ⟨true, none, false, []⟩
      else
        match fetchObjectsRecursive storeBlock remote fuel remoteCommit ⟨[], [], []⟩
            none 0 none with
        | (st, some _) => ⟨false, none, false, st.trace⟩
        | (st, none) => ⟨true, some (branch, remoteCommit), true, st.trace⟩

/-! ### Session server dispatcher (server.py NetworkServer._process_packet) -/

/-- The packet types of the wire protocol (network.py PacketType, as
imported and dispatched on by server.py and listed in the spec). -/
inductive PacketType
  | HANDSHAKE
  | HANDSHAKE_ACK
  | OBJECT_REQUEST
  | OBJECT_RESPONSE
  | BLOCK_REQUEST
  | BLOCK_RESPONSE
  | REF_REQUEST
  | REF_RESPONSE
  | PUSH_REQUEST
  | PUSH_RESPONSE
  | DATA
  | ERROR
deriving DecidableEq

/-- Constructor name of a packet type, standing in for Python's textual
rendering of the enum member in error payloads. -/
def packetTypeName : PacketType → String
  | .HANDSHAKE => "HANDSHAKE"
  | .HANDSHAKE_ACK => "HANDSHAKE_ACK"
  | .OBJECT_REQUEST => "OBJECT_REQUEST"
  | .OBJECT_RESPONSE => "OBJECT_RESPONSE"
  | .BLOCK_REQUEST => "BLOCK_REQUEST"
  | .BLOCK_RESPONSE => "BLOCK_RESPONSE"
  | .REF_REQUEST => "REF_REQUEST"
  | .REF_RESPONSE => "REF_RESPONSE"
  | .PUSH_REQUEST => "PUSH_REQUEST"
  | .PUSH_RESPONSE => "PUSH_RESPONSE"
  | .DATA => "DATA"
  | .ERROR => "ERROR"

/-- A packet as the server dispatcher sees it, with the payload already
decoded to text (the dispatcher decodes the payload for object requests
and encodes textual payloads for its responses). -/
structure ServerPacket where
  packet_type : PacketType
  session_id : String
  repo_path : String
  sequence : Nat
  total_packets : Nat
  payload : String
deriving DecidableEq

/-- NetworkServer._process_packet (server.py 85-183).  isRepo models
repository._is_repo() for the repository resolved at the packet's repo
path; loadObject models repository._load_object followed by
json.dumps (none for a missing object and for a falsy loaded value,
since the source tests truthiness); refs models the files under
refs/heads.  The dispatch handles HANDSHAKE, OBJECT_REQUEST,
REF_REQUEST and PUSH_REQUEST; every other packet type — including
BLOCK_REQUEST, for which the server has no branch — falls into the
final else and is answered with an Unknown packet type ERROR. -/
def processPacket (isRepo : Bool) (loadObject : String → Option String)
    (refsPayload : String) (packet : ServerPacket) : ServerPacket :=
  if ! isRepo then
    ⟨.ERROR, packet.session_id, packet.repo_path, 0, 1,
      "Repository not found at " ++ packet.repo_path⟩
  else
    match packet.packet_type with
    | .HANDSHAKE =>
      ⟨.HANDSHAKE_ACK, packet.session_id, packet.repo_path, 0, 1,
        "\x7b\"status\": \"ok\"\x7d"⟩
    | .OBJECT_REQUEST =>
      (match loadObject packet.payload with
       | some objBytes =>
         ⟨.OBJECT_RESPONSE, packet.session_id, packet.repo_path, 0, 1, objBytes⟩
       | none =>
         ⟨.ERROR, packet.session_id, packet.repo_path, 0, 1,
           "Object " ++ packet.payload ++ " not found"⟩)
    | .REF_REQUEST =>
      ⟨.REF_RESPONSE, packet.session_id, packet.repo_path, 0, 1, refsPayload⟩
    | .PUSH_REQUEST =>
      ⟨.PUSH_RESPONSE, packet.session_id, packet.repo_path, 0, 1,
        "\x7b\"status\": \"received\"\x7d"⟩
    | pt =>
      ⟨.ERROR, packet.session_id, packet.repo_path, 0, 1,
        "Unknown packet type: " ++ packetTypeName pt⟩

/-! ### Packet codec, modelled from the spec

The codec lives in cof/network.py, which is not among the given source
files; only its tests and callers are.  The definitions in this section
are therefore modelled from the specification section 6: a datagram is
a 16-character checksum over all following bytes, one packet-type byte,
a self-delimiting header of length-prefixed strings and fixed-width
big-endian integers, then the payload.  The checksum function (BLAKE3
in the source) is an abstract parameter producing 16 bytes; bytes are
Nat, strings travel as their encoded byte lists. -/

/-- Modelled from the spec: a 32-bit big-endian encoding, the
fixed-width integer layout the spec prescribes for header integers and
string length prefixes. -/
def be32 (n : Nat) : List Nat :=
  [n / 16777216 % 256, n / 65536 % 256, n / 256 % 256, n % 256]

/-- Read a 32-bit big-endian integer off the front of a byte list. -/
def readBe32 : List Nat → Option (Nat × List Nat)
  | a :: b :: c :: d :: rest => some (((a * 256 + b) * 256 + c) * 256 + d, rest)
  | _ => none

/-- Read exactly n bytes off the front of a byte list. -/
def readExact (n : Nat) (bs : List Nat) : Option (List Nat × List Nat) :=
  if n ≤ bs.length then some (bs.take n, bs.drop n) else none

/-- Modelled from the spec: the single-byte encoding of the packet-type
enum of section 3, in the order the spec lists the members. -/
def packetTypeByte : PacketType → Nat
  | .HANDSHAKE => 1
  | .HANDSHAKE_ACK => 2
  | .OBJECT_REQUEST => 3
  | .OBJECT_RESPONSE => 4
  | .BLOCK_REQUEST => 5
  | .BLOCK_RESPONSE => 6
  | .REF_REQUEST => 7
  | .REF_RESPONSE => 8
  | .PUSH_REQUEST => 9
  | .PUSH_RESPONSE => 10
  | .DATA => 11
  | .ERROR => 12

/-- Modelled from the spec: decoding of a packet-type byte.  Unknown
values decode as ERROR rather than being rejected, per section 4.1 and
the test test_invalid_packet_type. -/
def packetTypeOfByte (b : Nat) : PacketType :=
  if b = 1 then .HANDSHAKE
  else if b = 2 then .HANDSHAKE_ACK
  else if b = 3 then .OBJECT_REQUEST
  else if b = 4 then .OBJECT_RESPONSE
  else if b = 5 then .BLOCK_REQUEST
  else if b = 6 then .BLOCK_RESPONSE
  else if b = 7 then .REF_REQUEST
  else if b = 8 then .REF_RESPONSE
  else if b = 9 then .PUSH_REQUEST
  else if b = 10 then .PUSH_RESPONSE
  else if b = 11 then .DATA
  else .ERROR

/-- Modelled from the spec: a wire packet.  The session id, repo path
and payload travel as byte lists; the checksum is the 16 leading bytes
of the datagram. -/
structure PacketM where
  packet_type : PacketType
  session_id : List Nat
  repo_path : List Nat
  sequence : Nat
  total_packets : Nat
  payload : List Nat
  checksum : List Nat
deriving DecidableEq

/-- Modelled from the spec: every byte of the datagram after the
checksum — type byte, length-prefixed session id, length-prefixed repo
path, big-endian sequence and total_packets, payload. -/
def packetBody (tb : Nat) (sid repo : List Nat) (seq tot : Nat)
    (payload : List Nat) : List Nat :=
  tb :: (be32 sid.length ++ (sid ++ (be32 repo.length ++ (repo
    ++ (be32 seq ++ (be32 tot ++ payload))))))

/-- Modelled from the spec: building a packet from its fields computes
the checksum over the serialized body, as the source constructor does
(the test asserts the checksum of a fresh packet is 16 characters). -/
def mkPacketM (chk : List Nat → List Nat) (pt : PacketType)
    (sid repo : List Nat) (seq tot : Nat) (payload : List Nat) : PacketM :=
  ⟨pt, sid, repo, seq, tot, payload,
    chk (packetBody (packetTypeByte pt) sid repo seq tot payload)⟩

/-- Modelled from the spec: NetworkPacket.pack — serialize the body and
prepend the checksum over it. -/
def packPacket (chk : List Nat → List Nat) (p : PacketM) : List Nat :=
  chk (packetBody (packetTypeByte p.packet_type) p.session_id p.repo_path
      p.sequence p.total_packets p.payload)
    ++ packetBody (packetTypeByte p.packet_type) p.session_id p.repo_path
      p.sequence p.total_packets p.payload

/-- Modelled from the spec: NetworkPacket.unpack — reject inputs
shorter than the minimal header (Packet too small) and inputs whose
recomputed checksum differs from the declared one (checksum mismatch),
then parse the fields back; an unknown type byte yields an ERROR
packet. -/
def unpackPacket (chk : List Nat → List Nat) (data : List Nat) :
    Except String PacketM :=
  if data.length < 33 then .error "Packet too small"
  else if data.take 16 ≠ chk (data.drop 16) then .error "Packet checksum mismatch"
  else
    match data.drop 16 with
    | [] => .error "Packet too small"
    | tb :: r1 =>
      match readBe32 r1 with
      | none => .error "Malformed packet header"
      | some (sidLen, r2) =>
        match readExact sidLen r2 with
        | none => .error "Malformed packet header"
        | some (sid, r3) =>
          match readBe32 r3 with
          | none => .error "Malformed packet header"
          | some (repoLen, r4) =>
            match readExact repoLen r4 with
            | none => .error "Malformed packet header"
            | some (repo, r5) =>
              match readBe32 r5 with
              | none => .error "Malformed packet header"
              | some (seq, r6) =>
                match readBe32 r6 with
                | none => .error "Malformed packet header"
                | some (tot, payload) =>
                  .ok ⟨packetTypeOfByte tb, sid, repo, seq, tot, payload,
                    data.take 16⟩

/-! ### Concrete repositories used by evaluation theorems and witnesses -/

/-- A store hash function agreeing with the advertised hashes of the
concrete remotes below: block data k1data hashes to K1, and so on. -/
def sbGood : String → Nat → String :=
  fun data _ =>
    if data = "k1data" then "K1"
    else if data = "k2data" then "K2"
    else if data = "k3data" then "K3"
    else "unknown-block"

/-- A store hash function that disagrees with every advertised hash. -/
def sbBad : String → Nat → String :=
  fun _ _ => "XX"

/-- A remote with one commit whose tree has a dir entry to a subtree T1
holding a nested file g with blob B2 and block K2, next to a top-level
file f with blob B1 and block K1. -/
def nestedRemote : Remote where
  objects := fun h =>
    if h = "C0" then some { tree_root := some "T0" }
    else if h = "T0" then
      some { entries := some [("d", ⟨"dir", "T1"⟩), ("f", ⟨"file", "B1"⟩)] }
    else if h = "T1" then
      some { entries := some [("g", ⟨"file", "B2"⟩)] }
    else if h = "B1" then some { block_hashes := some ["K1"] }
    else if h = "B2" then some { block_hashes := some ["K2"] }
    else none
  blocks := fun h =>
    if h = "K1" then some "k1data"
    else if h = "K2" then some "k2data"
    else none

/-- A remote with the commit chain C3 -> C2 -> C1 (tip C3), each commit
with its own one-file tree, as in the spec's shallow-clone scenario. -/
def chainRemote : Remote where
  objects := fun h =>
    if h = "C3" then some { parent := some "C2", tree_root := some "T3" }
    else if h = "C2" then some { parent := some "C1", tree_root := some "T2" }
    else if h = "C1" then some { tree_root := some "T1" }
    else if h = "T3" then some { entries := some [("a.txt", ⟨"file", "B3"⟩)] }
    else if h = "T2" then some { entries := some [("a.txt", ⟨"file", "B2"⟩)] }
    else if h = "T1" then some { entries := some [("a.txt", ⟨"file", "B1"⟩)] }
    else if h = "B3" then some { block_hashes := some ["K3"] }
    else if h = "B2" then some { block_hashes := some ["K2"] }
    else if h = "B1" then some { block_hashes := some ["K1"] }
    else none
  blocks := fun h =>
    if h = "K3" then some "k3data"
    else if h = "K2" then some "k2data"
    else if h = "K1" then some "k1data"
    else none

/-- A remote with a single commit, tree, blob and block. -/
def smallRemote : Remote where
  objects := fun h =>
    if h = "C1" then some { tree_root := some "T1" }
    else if h = "T1" then some { entries := some [("f", ⟨"file", "B1"⟩)] }
    else if h = "B1" then some { block_hashes := some ["K1"] }
    else none
  blocks := fun h => if h = "K1" then some "k1data" else none

/-- A remote that answers no request at all. -/
def emptyRemote : Remote where
  objects := fun _ => none
  blocks := fun _ => none

example :
    fetchObjectsRecursive sbGood nestedRemote 10 "C0" ⟨[], [], []⟩ none 0 none =
      (⟨["K1", "B1", "T1", "T0", "C0"],
        [Req.obj "C0", Req.obj "T0", Req.obj "T1", Req.obj "B1", Req.blk "K1"],
        []⟩, none) := by decide

example :
    cloneRepository sbGood chainRemote true [("main", "C3")] (some 1) none 10 =
      ⟨true, [("main", "C3")],
        [Req.obj "C3", Req.obj "T3", Req.obj "B3", Req.blk "K3"]⟩ := by decide

example :
    fetchObjectsRecursive sbBad smallRemote 10 "C1" ⟨[], [], []⟩ none 0 none =
      (⟨["K1", "B1", "T1", "C1"],
        [Req.obj "C1", Req.obj "T1", Req.obj "B1", Req.blk "K1"],
        ["Warning: Block hash mismatch: XX != K1"]⟩, none) := by decide

/-! ### Monotonicity of the fetched set and of the warnings -/

/-- The block loop never removes a hash from the fetched set. -/
theorem fetchBlocksLoop_mono_fetched (sb : String → Nat → String) (r : Remote) :
    ∀ (bhs : List String) (st : FetchSt) (x : String),
      x ∈ st.fetched → x ∈ (fetchBlocksLoop sb r bhs st).1.fetched := by
  intro bhs
  induction bhs with
  | nil => intro st x hx; exact hx
  | cons bh rest ih =>
    intro st x hx
    rw [fetchBlocksLoop]
    split
    · exact ih st x hx
    · split
      · simpa using hx
      · apply ih
        split <;> simp [hx]

/-- The block loop never removes a warning. -/
theorem fetchBlocksLoop_mono_warnings (sb : String → Nat → String) (r : Remote) :
    ∀ (bhs : List String) (st : FetchSt) (w : String),
      w ∈ st.warnings → w ∈ (fetchBlocksLoop sb r bhs st).1.warnings := by
  intro bhs
  induction bhs with
  | nil => intro st w hw; exact hw
  | cons bh rest ih =>
    intro st w hw
    rw [fetchBlocksLoop]
    split
    · exact ih st w hw
    · split
      · simpa using hw
      · apply ih
        split <;> simp [hw]

/-- The entry loop never removes a hash from the fetched set. -/
theorem fetchEntriesLoop_mono_fetched (sb : String → Nat → String) (r : Remote)
    (pf : Option String) (cp : String) :
    ∀ (es : List (String × EntryData)) (st : FetchSt) (x : String),
      x ∈ st.fetched → x ∈ (fetchEntriesLoop sb r pf cp es st).1.fetched := by
  intro es
  induction es with
  | nil => intro st x hx; exact hx
  | cons entry rest ih =>
    intro st x hx
    rw [fetchEntriesLoop.eq_def]
    dsimp only
    split
    · exact ih st x hx
    · split
      · exact ih st x hx
      · split
        · simpa using hx
        · split
          · split
            · next st2 e heq =>
              have hm : x ∈ (st2, some e).1.fetched := by
                rw [← heq]
                exact fetchBlocksLoop_mono_fetched sb r _ _ x (by simp [hx])
              simpa using hm
            · next st2 heq =>
              apply ih
              have hm : x ∈ (st2, (none : Option String)).1.fetched := by
                rw [← heq]
                exact fetchBlocksLoop_mono_fetched sb r _ _ x (by simp [hx])
              simpa using hm
          · apply ih
            simp [hx]

/-- Tree fetching never removes a hash from the fetched set. -/
theorem fetchTreeRecursive_mono_fetched (sb : String → Nat → String) (r : Remote)
    (treeHash : String) (st : FetchSt) (pf : Option String) (cp : String)
    (x : String) (hx : x ∈ st.fetched) :
    x ∈ (fetchTreeRecursive sb r treeHash st pf cp).1.fetched := by
  rw [fetchTreeRecursive]
  split
  · exact hx
  · split
    · simpa using hx
    · split
      · apply fetchEntriesLoop_mono_fetched
        simp [hx]
      · simp [hx]

/-- The tree-walk continuation never removes a hash from the fetched set. -/
theorem thenTree_mono_fetched (sb : String → Nat → String) (r : Remote)
    (pf : Option String) (tr : Option String) (p : FetchSt × Option String)
    (x : String) (hx : x ∈ p.1.fetched) :
    x ∈ (thenTree sb r pf tr p).1.fetched := by
  obtain ⟨st3, e⟩ := p
  cases e with
  | some e => exact hx
  | none =>
    rw [thenTree.eq_def]
    dsimp only
    split
    · exact fetchTreeRecursive_mono_fetched sb r _ st3 pf "" x hx
    · exact hx

/-- Object fetching never removes a hash from the fetched set. -/
theorem fetchObjectsRecursive_mono_fetched (sb : String → Nat → String) (r : Remote) :
    ∀ (fuel : Nat) (h : String) (st : FetchSt) (depth : Option Int)
      (cd : Int) (pf : Option String) (x : String),
      x ∈ st.fetched → x ∈ (fetchObjectsRecursive sb r fuel h st depth cd pf).1.fetched := by
  intro fuel
  induction fuel with
  | zero =>
    intro h st depth cd pf x hx
    rw [fetchObjectsRecursive]
    split
    · exact hx
    · exact hx
  | succ fuel' ih =>
    intro h st depth cd pf x hx
    rw [fetchObjectsRecursive]
    split
    · exact hx
    · split
      · simp [hx]
      · apply thenTree_mono_fetched
        split
        · split
          · exact ih _ _ _ _ _ x (by simp [hx])
          · split
            · exact ih _ _ _ _ _ x (by simp [hx])
            · simp [hx]
        · simp [hx]

/-- A fetch of a hash always leaves that hash in the fetched set when
there is fuel to take the first step (the source adds it to the set
before anything else). -/
theorem fetchObjectsRecursive_adds (sb : String → Nat → String) (r : Remote)
    (fuel : Nat) (h : String) (st : FetchSt) (depth : Option Int) (cd : Int)
    (pf : Option String) :
    h ∈ (fetchObjectsRecursive sb r (fuel + 1) h st depth cd pf).1.fetched := by
  rw [fetchObjectsRecursive]
  split
  · assumption
  · split
    · simp
    · apply thenTree_mono_fetched
      split
      · split
        · exact fetchObjectsRecursive_mono_fetched sb r _ _ _ _ _ _ h (by simp)
        · split
          · exact fetchObjectsRecursive_mono_fetched sb r _ _ _ _ _ _ h (by simp)
          · simp
      · simp

/-! ### The deduplication invariant

Every request site of the synchronizer is guarded by a membership test
on the fetched set and immediately records its hash in that set, so the
hashes of the requests issued so far are pairwise distinct and all lie
in the fetched set.  GoodSt packages that invariant. -/

/-- The traversal invariant: requested hashes are pairwise distinct and
every requested hash is in the fetched set. -/
def GoodSt (st : FetchSt) : Prop :=
  (st.trace.map reqHash).Nodup ∧ ∀ x ∈ st.trace.map reqHash, x ∈ st.fetched

/-- The empty state satisfies the invariant. -/
theorem goodSt_empty : GoodSt ⟨[], [], []⟩ := by
  constructor
  · simp
  · intro x hx
    simp at hx

/-- Recording one request whose hash is fresh preserves the invariant
when the hash is also added to the fetched set. -/
theorem goodSt_extend (st : FetchSt) (rq : Req) (w : List String)
    (hg : GoodSt st) (hx : reqHash rq ∉ st.fetched) :
    GoodSt { fetched := reqHash rq :: st.fetched, trace := st.trace ++ [rq],
             warnings := w } := by
  obtain ⟨hnd, hsub⟩ := hg
  have hnotin : reqHash rq ∉ st.trace.map reqHash := fun hmem => hx (hsub _ hmem)
  constructor
  · rw [List.map_append]
    refine List.Nodup.append hnd (by simp) ?_
    intro a ha hb
    simp only [List.map_cons, List.map_nil, List.mem_cons, List.not_mem_nil,
      or_false] at hb
    subst hb
    exact hnotin ha
  · intro x hxm
    simp only [List.map_append, List.map_cons, List.map_nil, List.mem_append,
      List.mem_cons, List.not_mem_nil, or_false] at hxm
    rcases hxm with hxm | hxm
    · exact List.mem_cons_of_mem _ (hsub _ hxm)
    · simp [hxm]

/-- Recording one request whose hash is fresh keeps the requested
hashes pairwise distinct, even when the fetched set is left alone (the
error paths of the synchronizer do that). -/
theorem nodup_concat_req (st : FetchSt) (rq : Req)
    (hg : GoodSt st) (hx : reqHash rq ∉ st.fetched) :
    (((st.trace ++ [rq]).map reqHash)).Nodup := by
  obtain ⟨hnd, hsub⟩ := hg
  have hnotin : reqHash rq ∉ st.trace.map reqHash := fun hmem => hx (hsub _ hmem)
  rw [List.map_append]
  refine List.Nodup.append hnd (by simp) ?_
  intro a ha hb
  simp only [List.map_cons, List.map_nil, List.mem_cons, List.not_mem_nil,
    or_false] at hb
  subst hb
  exact hnotin ha

/-- The block loop preserves the invariant: the requested hashes stay
pairwise distinct, and on a run that raised no error the full invariant
holds again. -/
theorem fetchBlocksLoop_good (sb : String → Nat → String) (r : Remote) :
    ∀ (bhs : List String) (st : FetchSt), GoodSt st →
      (((fetchBlocksLoop sb r bhs st).1.trace.map reqHash).Nodup
       ∧ ((fetchBlocksLoop sb r bhs st).2 = none →
           GoodSt (fetchBlocksLoop sb r bhs st).1)) := by
  intro bhs
  induction bhs with
  | nil =>
    intro st hg
    exact ⟨hg.1, fun _ => hg⟩
  | cons bh rest ih =>
    intro st hg
    rw [fetchBlocksLoop]
    split
    · exact ih st hg
    · next hmem =>
      split
      · refine ⟨?_, ?_⟩
        · simpa using nodup_concat_req st (Req.blk bh) hg hmem
        · intro hc
          simp at hc
      · apply ih
        split
        · exact goodSt_extend st (Req.blk bh) _ hg hmem
        · exact goodSt_extend st (Req.blk bh) _ hg hmem

/-- The entry loop preserves the invariant in the same sense. -/
theorem fetchEntriesLoop_good (sb : String → Nat → String) (r : Remote)
    (pf : Option String) (cp : String) :
    ∀ (es : List (String × EntryData)) (st : FetchSt), GoodSt st →
      (((fetchEntriesLoop sb r pf cp es st).1.trace.map reqHash).Nodup
       ∧ ((fetchEntriesLoop sb r pf cp es st).2 = none →
           GoodSt (fetchEntriesLoop sb r pf cp es st).1)) := by
  intro es
  induction es with
  | nil =>
    intro st hg
    exact ⟨hg.1, fun _ => hg⟩
  | cons entry rest ih =>
    intro st hg
    rw [fetchEntriesLoop.eq_def]
    dsimp only
    split
    · exact ih st hg
    · split
      · exact ih st hg
      · next hmem =>
        split
        · refine ⟨?_, ?_⟩
          · simpa using nodup_concat_req st (Req.obj entry.2.hash) hg hmem
          · intro hc
            simp at hc
        · split
          · split
            · next st2 e heq =>
              have hbl : (((st2, some e) : FetchSt × Option String).1.trace.map reqHash).Nodup ∧
                  (((st2, some e) : FetchSt × Option String).2 = none →
                    GoodSt ((st2, some e) : FetchSt × Option String).1) := by
                rw [← heq]
                exact fetchBlocksLoop_good sb r _ _
                  (goodSt_extend st (Req.obj entry.2.hash) st.warnings hg hmem)
              refine ⟨by simpa using hbl.1, ?_⟩
              intro hc
              simp at hc
            · next st2 heq =>
              apply ih
              have hbl : (((st2, none) : FetchSt × Option String).1.trace.map reqHash).Nodup ∧
                  (((st2, none) : FetchSt × Option String).2 = none →
                    GoodSt ((st2, none) : FetchSt × Option String).1) := by
                rw [← heq]
                exact fetchBlocksLoop_good sb r _ _
                  (goodSt_extend st (Req.obj entry.2.hash) st.warnings hg hmem)
              exact hbl.2 rfl
          · exact ih _ (goodSt_extend st (Req.obj entry.2.hash) st.warnings hg hmem)

/-- Tree fetching preserves the invariant in the same sense. -/
theorem fetchTreeRecursive_good (sb : String → Nat → String) (r : Remote)
    (treeHash : String) (st : FetchSt) (pf : Option String) (cp : String)
    (hg : GoodSt st) :
    (((fetchTreeRecursive sb r treeHash st pf cp).1.trace.map reqHash).Nodup
     ∧ ((fetchTreeRecursive sb r treeHash st pf cp).2 = none →
         GoodSt (fetchTreeRecursive sb r treeHash st pf cp).1)) := by
  rw [fetchTreeRecursive]
  split
  · exact ⟨hg.1, fun _ => hg⟩
  · next hmem =>
    split
    · refine ⟨?_, ?_⟩
      · simpa using nodup_concat_req st (Req.obj treeHash) hg hmem
      · intro hc
        simp at hc
    · split
      · exact fetchEntriesLoop_good sb r pf cp _ _
          (goodSt_extend st (Req.obj treeHash) st.warnings hg hmem)
      · exact ⟨(goodSt_extend st (Req.obj treeHash) st.warnings hg hmem).1,
          fun _ => goodSt_extend st (Req.obj treeHash) st.warnings hg hmem⟩

/-- The tree-walk continuation preserves the invariant in the same
sense. -/
theorem thenTree_good (sb : String → Nat → String) (r : Remote)
    (pf : Option String) (tr : Option String) (p : FetchSt × Option String)
    (hp : (p.1.trace.map reqHash).Nodup ∧ (p.2 = none → GoodSt p.1)) :
    (((thenTree sb r pf tr p).1.trace.map reqHash).Nodup
     ∧ ((thenTree sb r pf tr p).2 = none → GoodSt (thenTree sb r pf tr p).1)) := by
  obtain ⟨st3, e⟩ := p
  cases e with
  | some e =>
    refine ⟨hp.1, ?_⟩
    intro hc
    simp [thenTree] at hc
  | none =>
    rw [thenTree.eq_def]
    dsimp only
    split
    · exact fetchTreeRecursive_good sb r _ st3 pf "" (hp.2 rfl)
    · exact ⟨hp.1, fun _ => hp.2 rfl⟩

/-- Object fetching preserves the invariant in the same sense. -/
theorem fetchObjectsRecursive_good (sb : String → Nat → String) (r : Remote) :
    ∀ (fuel : Nat) (h : String) (st : FetchSt) (depth : Option Int)
      (cd : Int) (pf : Option String), GoodSt st →
      (((fetchObjectsRecursive sb r fuel h st depth cd pf).1.trace.map reqHash).Nodup
       ∧ ((fetchObjectsRecursive sb r fuel h st depth cd pf).2 = none →
           GoodSt (fetchObjectsRecursive sb r fuel h st depth cd pf).1)) := by
  intro fuel
  induction fuel with
  | zero =>
    intro h st depth cd pf hg
    rw [fetchObjectsRecursive]
    split
    · exact ⟨hg.1, fun _ => hg⟩
    · exact ⟨hg.1, fun hc => by simp at hc⟩
  | succ fuel' ih =>
    intro h st depth cd pf hg
    rw [fetchObjectsRecursive]
    split
    · exact ⟨hg.1, fun _ => hg⟩
    · next hmem =>
      split
      · refine ⟨?_, ?_⟩
        · simpa using nodup_concat_req st (Req.obj h) hg hmem
        · intro hc
          simp at hc
      · apply thenTree_good
        split
        · split
          · exact ih _ _ _ _ _ (goodSt_extend st (Req.obj h) st.warnings hg hmem)
          · split
            · exact ih _ _ _ _ _ (goodSt_extend st (Req.obj h) st.warnings hg hmem)
            · exact ⟨(goodSt_extend st (Req.obj h) st.warnings hg hmem).1,
                fun _ => goodSt_extend st (Req.obj h) st.warnings hg hmem⟩
        · exact ⟨(goodSt_extend st (Req.obj h) st.warnings hg hmem).1,
            fun _ => goodSt_extend st (Req.obj h) st.warnings hg hmem⟩

/-! ### The store hash function can only influence warnings

A mismatch between the hash assigned by the store and the advertised
hash never changes the fetched set, the request trace or the error
outcome of the traversal — the source only echoes a warning.  The
lemmas below make that precise by running the same traversal against
two arbitrary store hash functions. -/

/-- Two traversal states that agree on everything except possibly the
warnings. -/
def AgreeSt (st st' : FetchSt) : Prop :=
  st.fetched = st'.fetched ∧ st.trace = st'.trace

/-- Two traversal outcomes that agree on everything except possibly the
warnings. -/
def AgreeRes (p p' : FetchSt × Option String) : Prop :=
  p.1.fetched = p'.1.fetched ∧ p.1.trace = p'.1.trace ∧ p.2 = p'.2

/-- The block loop run against two stores from agreeing states produces
agreeing outcomes: the store hash only decides whether a warning is
appended. -/
theorem fetchBlocksLoop_store_agnostic (sb sb' : String → Nat → String) (r : Remote) :
    ∀ (bhs : List String) (st st' : FetchSt), AgreeSt st st' →
      AgreeRes (fetchBlocksLoop sb r bhs st) (fetchBlocksLoop sb' r bhs st') := by
  intro bhs
  induction bhs with
  | nil =>
    intro st st' ⟨hF, hT⟩
    exact ⟨hF, hT, rfl⟩
  | cons bh rest ih =>
    intro st st' ⟨hF, hT⟩
    rw [fetchBlocksLoop, fetchBlocksLoop]
    simp only [hF, hT]
    by_cases hmem : bh ∈ st'.fetched
    · simp only [if_pos hmem]
      exact ih st st' ⟨hF, hT⟩
    · simp only [if_neg hmem]
      cases hrb : r.blocks bh with
      | none =>
        simp only
        exact ⟨rfl, rfl, rfl⟩
      | some blockData =>
        simp only
        apply ih
        constructor
        · show FetchSt.fetched _ = FetchSt.fetched _
          split <;> split <;> rfl
        · show FetchSt.trace _ = FetchSt.trace _
          split <;> split <;> rfl

/-- The entry loop run against two stores from agreeing states produces
agreeing outcomes. -/
theorem fetchEntriesLoop_store_agnostic (sb sb' : String → Nat → String)
    (r : Remote) (pf : Option String) (cp : String) :
    ∀ (es : List (String × EntryData)) (st st' : FetchSt), AgreeSt st st' →
      AgreeRes (fetchEntriesLoop sb r pf cp es st)
        (fetchEntriesLoop sb' r pf cp es st') := by
  intro es
  induction es with
  | nil =>
    intro st st' ⟨hF, hT⟩
    exact ⟨hF, hT, rfl⟩
  | cons entry rest ih =>
    intro st st' ⟨hF, hT⟩
    rw [fetchEntriesLoop.eq_def, fetchEntriesLoop.eq_def]
    dsimp only
    simp only [hF, hT]
    split
    · exact ih st st' ⟨hF, hT⟩
    · by_cases hmem : entry.2.hash ∈ st'.fetched
      · simp only [if_pos hmem]
        exact ih st st' ⟨hF, hT⟩
      · simp only [if_neg hmem]
        cases hro : r.objects entry.2.hash with
        | none =>
          simp only
          exact ⟨rfl, rfl, rfl⟩
        | some blobDict =>
          simp only
          cases hbh : blobDict.block_hashes with
          | none =>
            simp only
            exact ih _ _ ⟨rfl, rfl⟩
          | some bhs =>
            simp only
            have hb := fetchBlocksLoop_store_agnostic sb sb' r bhs
              { fetched := entry.2.hash :: st'.fetched,
                trace := st'.trace ++ [Req.obj entry.2.hash],
                warnings := st.warnings }
              { fetched := entry.2.hash :: st'.fetched,
                trace := st'.trace ++ [Req.obj entry.2.hash],
                warnings := st'.warnings }
              ⟨rfl, rfl⟩
            rcases h1 : fetchBlocksLoop sb r bhs
              { fetched := entry.2.hash :: st'.fetched,
                trace := st'.trace ++ [Req.obj entry.2.hash],
                warnings := st.warnings } with ⟨st2, e⟩
            rcases h2 : fetchBlocksLoop sb' r bhs
              { fetched := entry.2.hash :: st'.fetched,
                trace := st'.trace ++ [Req.obj entry.2.hash],
                warnings := st'.warnings } with ⟨st2', e'⟩
            rw [h1, h2] at hb
            obtain ⟨hbF, hbT, hbE⟩ := hb
            cases e with
            | some err =>
              cases e' with
              | some err' =>
                simp only
                refine ⟨hbF, hbT, ?_⟩
                simpa using hbE
              | none => simp at hbE
            | none =>
              cases e' with
              | some err' => simp at hbE
              | none =>
                simp only
                exact ih st2 st2' ⟨hbF, hbT⟩

/-- Tree fetching run against two stores from agreeing states produces
agreeing outcomes. -/
theorem fetchTreeRecursive_store_agnostic (sb sb' : String → Nat → String)
    (r : Remote) (treeHash : String) (pf : Option String) (cp : String)
    (st st' : FetchSt) (hA : AgreeSt st st') :
    AgreeRes (fetchTreeRecursive sb r treeHash st pf cp)
      (fetchTreeRecursive sb' r treeHash st' pf cp) := by
  obtain ⟨hF, hT⟩ := hA
  rw [fetchTreeRecursive, fetchTreeRecursive]
  simp only [hF, hT]
  by_cases hmem : treeHash ∈ st'.fetched
  · simp only [if_pos hmem]
    exact ⟨hF, hT, rfl⟩
  · simp only [if_neg hmem]
    cases hro : r.objects treeHash with
    | none =>
      simp only
      exact ⟨rfl, rfl, rfl⟩
    | some treeDict =>
      simp only
      cases hes : treeDict.entries with
      | none =>
        simp only
        exact ⟨rfl, rfl, rfl⟩
      | some es =>
        simp only
        exact fetchEntriesLoop_store_agnostic sb sb' r pf cp es _ _ ⟨rfl, rfl⟩

/-- The tree-walk continuation run against two stores from agreeing
inputs produces agreeing outcomes. -/
theorem thenTree_store_agnostic (sb sb' : String → Nat → String) (r : Remote)
    (pf : Option String) (tr : Option String) (p p' : FetchSt × Option String)
    (hp : AgreeRes p p') :
    AgreeRes (thenTree sb r pf tr p) (thenTree sb' r pf tr p') := by
  obtain ⟨st3, e⟩ := p
  obtain ⟨st3', e'⟩ := p'
  obtain ⟨hF, hT, hE⟩ := hp
  simp only at hF hT hE
  subst hE
  cases e with
  | some err => exact ⟨hF, hT, rfl⟩
  | none =>
    rw [thenTree.eq_def, thenTree.eq_def]
    dsimp only
    cases tr with
    | none => exact ⟨hF, hT, rfl⟩
    | some trh =>
      simp only
      exact fetchTreeRecursive_store_agnostic sb sb' r trh pf "" st3 st3' ⟨hF, hT⟩

/-- Object fetching run against two stores from agreeing states
produces agreeing outcomes: the success or failure of a fetch and the
requests it issues never depend on the store hash function, so a block
hash mismatch cannot abort the traversal. -/
theorem fetchObjectsRecursive_store_agnostic (sb sb' : String → Nat → String)
    (r : Remote) :
    ∀ (fuel : Nat) (h : String) (st st' : FetchSt) (depth : Option Int)
      (cd : Int) (pf : Option String), AgreeSt st st' →
      AgreeRes (fetchObjectsRecursive sb r fuel h st depth cd pf)
        (fetchObjectsRecursive sb' r fuel h st' depth cd pf) := by
  intro fuel
  induction fuel with
  | zero =>
    intro h st st' depth cd pf ⟨hF, hT⟩
    rw [fetchObjectsRecursive, fetchObjectsRecursive]
    simp only [hF, hT]
    by_cases hmem : h ∈ st'.fetched
    · simp only [if_pos hmem]
      exact ⟨hF, hT, rfl⟩
    · simp only [if_neg hmem]
      exact ⟨hF, hT, rfl⟩
  | succ fuel' ih =>
    intro h st st' depth cd pf ⟨hF, hT⟩
    rw [fetchObjectsRecursive, fetchObjectsRecursive]
    simp only [hF, hT]
    by_cases hmem : h ∈ st'.fetched
    · simp only [if_pos hmem]
      exact ⟨hF, hT, rfl⟩
    · simp only [if_neg hmem]
      cases hro : r.objects h with
      | none =>
        simp only
        exact ⟨rfl, rfl, rfl⟩
      | some objDict =>
        simp only
        apply thenTree_store_agnostic
        cases hpar : objDict.parent with
        | none =>
          simp only
          exact ⟨rfl, rfl, rfl⟩
        | some parentHash =>
          simp only
          cases depth with
          | none =>
            exact ih parentHash _ _ none (cd + 1) pf ⟨rfl, rfl⟩
          | some d =>
            by_cases hd : cd < d - 1
            · simp only [if_pos hd]
              exact ih parentHash _ _ (some d) (cd + 1) pf ⟨rfl, rfl⟩
            · simp only [if_neg hd]
              exact ⟨rfl, rfl, rfl⟩

/-- When the store hash of a fetched block disagrees with the advertised
hash, the block loop records the warning naming both hashes, provided
the loop does not abort earlier for a missing block. -/
theorem fetchBlocksLoop_warns_on_mismatch (sb : String → Nat → String) (r : Remote) :
    ∀ (bhs : List String) (st : FetchSt) (bh data : String),
      (∀ x ∈ bhs, (r.blocks x).isSome) →
      bh ∈ bhs → bh ∉ st.fetched → r.blocks bh = some data →
      sb data 0 ≠ bh →
      ("Warning: Block hash mismatch: " ++ sb data 0 ++ " != " ++ bh)
        ∈ (fetchBlocksLoop sb r bhs st).1.warnings := by
  intro bhs
  induction bhs with
  | nil =>
    intro st bh data hall hmem
    simp at hmem
  | cons b0 rest ih =>
    intro st bh data hall hmem hnot hsome hneq
    rw [fetchBlocksLoop]
    by_cases hb0 : b0 = bh
    · subst hb0
      rw [if_neg hnot]
      simp only [hsome]
      rw [if_pos hneq]
      apply fetchBlocksLoop_mono_warnings
      simp
    · have hmem' : bh ∈ rest := by
        rcases List.mem_cons.mp hmem with hεq | hr
        · exact absurd hεq.symm hb0
        · exact hr
      have hall' : ∀ x ∈ rest, (r.blocks x).isSome :=
        fun x hx => hall x (List.mem_cons_of_mem _ hx)
      split
      · exact ih st bh data hall' hmem' hnot hsome hneq
      · cases hrb : r.blocks b0 with
        | none =>
          exfalso
          have := hall b0 (List.mem_cons_self _ _)
          rw [hrb] at this
          simp at this
        | some bd =>
          simp only [hrb]
          apply ih _ bh data hall' hmem' ?_ hsome hneq
          split
          · simp only [FetchSt.fetched]
            intro hc
            rcases List.mem_cons.mp hc with hc | hc
            · exact hb0 hc.symm
            · exact hnot hc
          · simp only [FetchSt.fetched]
            intro hc
            rcases List.mem_cons.mp hc with hc | hc
            · exact hb0 hc.symm
            · exact hnot hc

/-! ### Codec parse lemmas -/

/-- Reading back a 32-bit big-endian encoding recovers the integer. -/
theorem readBe32_be32 (n : Nat) (hn : n < 4294967296) (rest : List Nat) :
    readBe32 (be32 n ++ rest) = some (n, rest) := by
  simp only [be32, readBe32, List.cons_append, List.nil_append]
  have hval : (((n / 16777216 % 256) * 256 + n / 65536 % 256) * 256
      + n / 256 % 256) * 256 + n % 256 = n := by omega
  rw [hval]

/-- Reading exactly the length of a prefix recovers that prefix. -/
theorem readExact_append (xs rest : List Nat) :
    readExact xs.length (xs ++ rest) = some (xs, rest) := by
  have hle : xs.length ≤ (xs ++ rest).length := by
    simp
  simp [readExact, hle, List.take_left, List.drop_left]

/-- The length of a packet body. -/
theorem packetBody_length (tb : Nat) (sid repo : List Nat) (seq tot : Nat)
    (payload : List Nat) :
    (packetBody tb sid repo seq tot payload).length
      = 17 + sid.length + repo.length + payload.length := by
  simp [packetBody, be32]
  omega

/-- Unpacking a datagram built as a checksum over a packet body followed
by that body parses all fields back, decoding the type byte. -/
theorem unpack_chk_body (chk : List Nat → List Nat)
    (hchk : ∀ bs, (chk bs).length = 16)
    (tb : Nat) (sid repo payload : List Nat) (seq tot : Nat)
    (hsid : sid.length < 4294967296) (hrepo : repo.length < 4294967296)
    (hseq : seq < 4294967296) (htot : tot < 4294967296) :
    unpackPacket chk (chk (packetBody tb sid repo seq tot payload)
        ++ packetBody tb sid repo seq tot payload)
      = .ok ⟨packetTypeOfByte tb, sid, repo, seq, tot, payload,
          chk (packetBody tb sid repo seq tot payload)⟩ := by
  have hlen16 : (chk (packetBody tb sid repo seq tot payload)).length = 16 := hchk _
  have htake : (chk (packetBody tb sid repo seq tot payload)
      ++ packetBody tb sid repo seq tot payload).take 16
      = chk (packetBody tb sid repo seq tot payload) := by
    rw [← hlen16]
    exact List.take_left _ _
  have hdrop : (chk (packetBody tb sid repo seq tot payload)
      ++ packetBody tb sid repo seq tot payload).drop 16
      = packetBody tb sid repo seq tot payload := by
    rw [← hlen16]
    exact List.drop_left _ _
  rw [unpackPacket]
  rw [if_neg (by
    rw [List.length_append, hlen16, packetBody_length]
    omega)]
  rw [htake, hdrop]
  rw [if_neg (by simp)]
  simp only [packetBody]
  rw [readBe32_be32 _ hsid]
  simp only
  rw [readExact_append]
  simp only
  rw [readBe32_be32 _ hrepo]
  simp only
  rw [readExact_append]
  simp only
  rw [readBe32_be32 _ hseq]
  simp only
  rw [readBe32_be32 _ htot]

/-- Decoding inverts encoding on every known packet type. -/
theorem packetTypeOfByte_packetTypeByte (pt : PacketType) :
    packetTypeOfByte (packetTypeByte pt) = pt := by
  cases pt <;> rfl

/-- A byte that is no known packet type decodes as ERROR. -/
theorem packetTypeOfByte_unknown (b : Nat)
    (hb : ∀ pt : PacketType, packetTypeByte pt ≠ b) :
    packetTypeOfByte b = PacketType.ERROR := by
  unfold packetTypeOfByte
  rw [if_neg (fun hc => hb .HANDSHAKE (by simp [packetTypeByte, hc])),
    if_neg (fun hc => hb .HANDSHAKE_ACK (by simp [packetTypeByte, hc])),
    if_neg (fun hc => hb .OBJECT_REQUEST (by simp [packetTypeByte, hc])),
    if_neg (fun hc => hb .OBJECT_RESPONSE (by simp [packetTypeByte, hc])),
    if_neg (fun hc => hb .BLOCK_REQUEST (by simp [packetTypeByte, hc])),
    if_neg (fun hc => hb .BLOCK_RESPONSE (by simp [packetTypeByte, hc])),
    if_neg (fun hc => hb .REF_REQUEST (by simp [packetTypeByte, hc])),
    if_neg (fun hc => hb .REF_RESPONSE (by simp [packetTypeByte, hc])),
    if_neg (fun hc => hb .PUSH_REQUEST (by simp [packetTypeByte, hc])),
    if_neg (fun hc => hb .PUSH_RESPONSE (by simp [packetTypeByte, hc])),
    if_neg (fun hc => hb .DATA (by simp [packetTypeByte, hc]))]

/-- A remote holding a single parent-bearing commit without a tree
root, for exercising the shallow-clone bound in isolation. -/
def commitOnlyRemote : Remote where
  objects := fun h =>
    if h = "A" then some { parent := some "P" }
    else if h = "P" then some {}
    else none
  blocks := fun _ => none

/-- The all-zero stand-in checksum used by codec witnesses. -/
def chkZero : List Nat → List Nat :=
  fun _ => List.replicate 16 0

/-! ### Claim theorems -/

/-- Claim C1 (code bug evaluation).  The claim says that for every tree
entry of kind dir that passes the path filter, the fetch recurses into
the subtree with the child path extended by the entry name, so the
whole transitive closure is transferred.  The source never inspects the
entry kind and never recurses: on a repository whose root tree has a
dir entry d pointing at subtree T1 that holds file g with blob B2 and
block K2, the fetch completes without error, requests T1 itself as if
it were a blob, and never requests the nested blob B2 or its block K2 —
they are absent from the request trace and from the fetched set. -/
theorem c1_dir_entries_not_recursed :
    fetchObjectsRecursive sbGood nestedRemote 10 "C0" ⟨[], [], []⟩ none 0 none =
      (⟨["K1", "B1", "T1", "T0", "C0"],
        [Req.obj "C0", Req.obj "T0", Req.obj "T1", Req.obj "B1", Req.blk "K1"],
        []⟩, none)
    ∧ Req.obj "B2" ∉
        (fetchObjectsRecursive sbGood nestedRemote 10 "C0" ⟨[], [], []⟩ none 0 none).1.trace
    ∧ Req.blk "K2" ∉
        (fetchObjectsRecursive sbGood nestedRemote 10 "C0" ⟨[], [], []⟩ none 0 none).1.trace
    ∧ "B2" ∉
        (fetchObjectsRecursive sbGood nestedRemote 10 "C0" ⟨[], [], []⟩ none 0 none).1.fetched := by
  refine ⟨by decide, by decide, by decide, by decide⟩

/-- Claim C2 (code bug evaluation).  The claim says a BLOCK_REQUEST for
a valid repository is answered from the block store with BLOCK_RESPONSE
on a hit and a not-found ERROR on a miss.  The dispatcher has no
BLOCK_REQUEST branch at all: whatever the stores hold, every
BLOCK_REQUEST falls into the final else and is answered with an
Unknown packet type ERROR. -/
theorem c2_block_request_unknown_type (loadObject : String → Option String)
    (refsPayload sid rp pl : String) (seq tot : Nat) :
    processPacket true loadObject refsPayload
        ⟨.BLOCK_REQUEST, sid, rp, seq, tot, pl⟩ =
      ⟨.ERROR, sid, rp, 0, 1, "Unknown packet type: BLOCK_REQUEST"⟩ := rfl

/-- Claim C3 (counterexample).  The claim says a block whose store hash
disagrees with the advertised hash makes the whole fetch abort, and
that fetch never completes successfully having stored such a block.  On
a one-block repository with a store that hashes everything to XX, the
fetch completes with no error and the mismatch surfaces only as a
warning; the enclosing clone even returns True and writes the refs. -/
theorem c3_counterexample :
    (fetchObjectsRecursive sbBad smallRemote 10 "C1" ⟨[], [], []⟩ none 0 none).2 = none
    ∧ (fetchObjectsRecursive sbBad smallRemote 10 "C1" ⟨[], [], []⟩ none 0 none).1.warnings
        = ["Warning: Block hash mismatch: XX != K1"]
    ∧ sbBad "k1data" 0 ≠ "K1"
    ∧ cloneRepository sbBad smallRemote true [("main", "C1")] none none 10 =
        ⟨true, [("main", "C1")],
          [Req.obj "C1", Req.obj "T1", Req.obj "B1", Req.blk "K1"]⟩ := by
  refine ⟨by decide, by decide, by decide, by decide⟩

/-- Claim C3 (amended).  A store-hash mismatch on a fetched block is
never fatal: the fetched set, the request trace and the error outcome
of a traversal are identical under any two store hash functions, so no
mismatch can abort the fetch; and whenever a fetched block's store hash
disagrees with its advertised hash (and the block loop does not abort
earlier for a missing block), a warning naming both hashes is
recorded. -/
theorem c3_mismatch_warns_but_never_aborts :
    (∀ (sb sb' : String → Nat → String) (r : Remote) (fuel : Nat) (h : String)
       (depth : Option Int) (cd : Int) (pf : Option String),
       AgreeRes (fetchObjectsRecursive sb r fuel h ⟨[], [], []⟩ depth cd pf)
         (fetchObjectsRecursive sb' r fuel h ⟨[], [], []⟩ depth cd pf))
    ∧ (∀ (sb : String → Nat → String) (r : Remote) (bhs : List String)
       (st : FetchSt) (bh data : String),
       (∀ x ∈ bhs, (r.blocks x).isSome) → bh ∈ bhs → bh ∉ st.fetched →
       r.blocks bh = some data → sb data 0 ≠ bh →
       ("Warning: Block hash mismatch: " ++ sb data 0 ++ " != " ++ bh)
         ∈ (fetchBlocksLoop sb r bhs st).1.warnings) := by
  constructor
  · intro sb sb' r fuel h depth cd pf
    exact fetchObjectsRecursive_store_agnostic sb sb' r fuel h _ _ depth cd pf ⟨rfl, rfl⟩
  · exact fetchBlocksLoop_warns_on_mismatch

/-- Witness for the amended claim C3, at the one-block repository with
the always-XX store. -/
theorem c3_witness :
    AgreeRes (fetchObjectsRecursive sbBad smallRemote 10 "C1" ⟨[], [], []⟩ none 0 none)
      (fetchObjectsRecursive sbGood smallRemote 10 "C1" ⟨[], [], []⟩ none 0 none)
    ∧ ("Warning: Block hash mismatch: " ++ sbBad "k1data" 0 ++ " != " ++ "K1")
        ∈ (fetchBlocksLoop sbBad smallRemote ["K1"] ⟨[], [], []⟩).1.warnings := by
  constructor
  · exact c3_mismatch_warns_but_never_aborts.1 sbBad sbGood smallRemote 10 "C1" none 0 none
  · exact c3_mismatch_warns_but_never_aborts.2 sbBad smallRemote ["K1"] ⟨[], [], []⟩
      "K1" "k1data" (by decide) (by decide) (by decide) (by decide) (by decide)

/-- Claim C4.  When the recursive fetch of the target commit fails
(missing object or block, failed request), clone_repository and
pull_from_remote return False and write no ref file: the only state
visible from the failed run is the partially issued request trace. -/
theorem c4_fetch_failure_aborts_without_refs :
    (∀ (sb : String → Nat → String) (r : Remote) (refs : List (String × String))
       (depth : Option Int) (pf : Option String) (fuel : Nat) (mc : String),
       lookupStr refs "main" = some mc → mc ≠ "" →
       (fetchObjectsRecursive sb r fuel mc ⟨[], [], []⟩ depth 0 pf).2.isSome →
       cloneRepository sb r true refs depth pf fuel =
         ⟨false, [], (fetchObjectsRecursive sb r fuel mc ⟨[], [], []⟩ depth 0 pf).1.trace⟩)
    ∧ (∀ (sb : String → Nat → String) (r : Remote) (refs : List (String × String))
       (branch : String) (localHead : Option String) (fuel : Nat) (rc : String),
       lookupStr refs branch = some rc → rc ≠ "" → localHead ≠ some rc →
       (fetchObjectsRecursive sb r fuel rc ⟨[], [], []⟩ none 0 none).2.isSome →
       pullFromRemote sb r true true refs branch localHead fuel =
         ⟨false, none, false,
           (fetchObjectsRecursive sb r fuel rc ⟨[], [], []⟩ none 0 none).1.trace⟩) := by
  constructor
  · intro sb r refs depth pf fuel mc hlook hmc hfail
    have hne : refs.isEmpty = false := by
      cases refs with
      | nil => simp [lookupStr] at hlook
      | cons a l => simp
    rcases hfe : fetchObjectsRecursive sb r fuel mc ⟨[], [], []⟩ depth 0 pf with ⟨stf, ef⟩
    rw [hfe] at hfail
    cases ef with
    | none => simp at hfail
    | some e => simp [cloneRepository, hne, hlook, hmc, hfe]
  · intro sb r refs branch localHead fuel rc hlook hrc hne hfail
    rcases hfe : fetchObjectsRecursive sb r fuel rc ⟨[], [], []⟩ none 0 none with ⟨stf, ef⟩
    rw [hfe] at hfail
    cases ef with
    | none => simp at hfail
    | some e => simp [pullFromRemote, hlook, hrc, hne, hfe]

/-- Witness for claim C4: against a remote that answers nothing, the
clone and the pull of commit C both fail after the single failed object
request and leave no ref. -/
theorem c4_witness :
    cloneRepository sbGood emptyRemote true [("main", "C")] none none 5 =
        ⟨false, [], [Req.obj "C"]⟩
    ∧ pullFromRemote sbGood emptyRemote true true [("main", "C")] "main" none 5 =
        ⟨false, none, false, [Req.obj "C"]⟩ := by
  constructor
  · have hc := c4_fetch_failure_aborts_without_refs.1 sbGood emptyRemote
      [("main", "C")] none none 5 "C" (by decide) (by decide) (by decide)
    rw [hc]
    decide
  · have hp := c4_fetch_failure_aborts_without_refs.2 sbGood emptyRemote
      [("main", "C")] "main" none 5 "C" (by decide) (by decide) (by decide) (by decide)
    rw [hp]
    decide

/-- Claim C5.  The parent of a fetched commit is walked exactly under
the shallow-clone bound: (i) whenever the parent field is present and
truthy and depth is None or current_depth < depth - 1, the parent hash
ends up in the fetched set; (ii) when the bound fails, the fetch of a
parent-bearing commit without a tree root stops after the commit
itself — one request, no parent; (iii) concretely, cloning the chain
C3 -> C2 -> C1 with depth 1 requests exactly the tip commit and its
tree closure and never requests C2 or C1. -/
theorem c5_depth_guard :
    (∀ (sb : String → Nat → String) (r : Remote) (fuel : Nat) (h : String)
       (st : FetchSt) (depth : Option Int) (cd : Int) (pf : Option String)
       (objDict : ObjDict) (p : String),
       h ∉ st.fetched → r.objects h = some objDict → objDict.parent = some p →
       (depth = none ∨ ∃ d : Int, depth = some d ∧ cd < d - 1) →
       p ∈ (fetchObjectsRecursive sb r (fuel + 2) h st depth cd pf).1.fetched)
    ∧ (∀ (sb : String → Nat → String) (r : Remote) (fuel : Nat) (h : String)
       (st : FetchSt) (d : Int) (cd : Int) (pf : Option String)
       (objDict : ObjDict) (p : String),
       h ∉ st.fetched → r.objects h = some objDict → objDict.parent = some p →
       objDict.tree_root = none → ¬ cd < d - 1 →
       fetchObjectsRecursive sb r (fuel + 1) h st (some d) cd pf =
         ({ fetched := h :: st.fetched, trace := st.trace ++ [Req.obj h],
            warnings := st.warnings }, none))
    ∧ (cloneRepository sbGood chainRemote true [("main", "C3")] (some 1) none 10 =
        ⟨true, [("main", "C3")],
          [Req.obj "C3", Req.obj "T3", Req.obj "B3", Req.blk "K3"]⟩
      ∧ Req.obj "C2" ∉ (cloneRepository sbGood chainRemote true [("main", "C3")]
          (some 1) none 10).trace
      ∧ Req.obj "C1" ∉ (cloneRepository sbGood chainRemote true [("main", "C3")]
          (some 1) none 10).trace) := by
  refine ⟨?_, ?_, by decide, by decide, by decide⟩
  · intro sb r fuel h st depth cd pf objDict p hnot hro hpar hguard
    rw [fetchObjectsRecursive]
    rw [if_neg hnot]
    simp only [hro]
    apply thenTree_mono_fetched
    simp only [hpar]
    rcases hguard with hg | ⟨d, hd, hlt⟩
    · subst hg
      exact fetchObjectsRecursive_adds sb r fuel p _ none (cd + 1) pf
    · subst hd
      simp only [if_pos hlt]
      exact fetchObjectsRecursive_adds sb r fuel p _ (some d) (cd + 1) pf
  · intro sb r fuel h st d cd pf objDict p hnot hro hpar htr hnd
    rw [fetchObjectsRecursive]
    rw [if_neg hnot]
    simp only [hro, hpar, htr]
    rw [if_neg hnd]
    rfl

/-- Witness for claim C5: the unbounded fetch of C3 walks to C2, and
with depth 1 the fetch of a parent-bearing commit without a tree root
issues only the one request for the commit itself. -/
theorem c5_witness :
    "C2" ∈ (fetchObjectsRecursive sbGood chainRemote 2 "C3" ⟨[], [], []⟩
        none 0 none).1.fetched
    ∧ fetchObjectsRecursive sbGood commitOnlyRemote 1 "A" ⟨[], [], []⟩
        (some 1) 0 none =
      ({ fetched := ["A"], trace := [Req.obj "A"], warnings := [] }, none) := by
  constructor
  · exact c5_depth_guard.1 sbGood chainRemote 0 "C3" ⟨[], [], []⟩ none 0 none
      { parent := some "C2", tree_root := some "T3" } "C2"
      (by decide) (by decide) (by decide) (Or.inl rfl)
  · have hstep := c5_depth_guard.2.1 sbGood commitOnlyRemote 0 "A" ⟨[], [], []⟩ 1 0 none
      { parent := some "P" } "P" (by decide) (by decide) (by decide) (by decide) (by decide)
    simpa using hstep

/-- Claim C6.  Within one fetch traversal started from an empty visited
set, every hash is requested at most once — the request trace maps to
pairwise distinct hashes, which in particular covers a tree that
references the same blob twice under different names — and a second run
of the fetch on the state left by a first run returns immediately with
no additional network request, whatever fuel it is given. -/
theorem c6_dedup_and_idempotent :
    (∀ (sb : String → Nat → String) (r : Remote) (fuel : Nat) (h : String)
       (depth : Option Int) (cd : Int) (pf : Option String),
       (((fetchObjectsRecursive sb r fuel h ⟨[], [], []⟩ depth cd pf).1.trace.map
         reqHash)).Nodup)
    ∧ (∀ (sb : String → Nat → String) (r : Remote) (fuel fuel2 : Nat) (h : String)
       (depth : Option Int) (cd : Int) (pf : Option String),
       fetchObjectsRecursive sb r fuel2 h
           (fetchObjectsRecursive sb r (fuel + 1) h ⟨[], [], []⟩ depth cd pf).1
           depth cd pf
         = ((fetchObjectsRecursive sb r (fuel + 1) h ⟨[], [], []⟩ depth cd pf).1,
            none)) := by
  constructor
  · intro sb r fuel h depth cd pf
    exact (fetchObjectsRecursive_good sb r fuel h ⟨[], [], []⟩ depth cd pf goodSt_empty).1
  · intro sb r fuel fuel2 h depth cd pf
    have hmem := fetchObjectsRecursive_adds sb r fuel h ⟨[], [], []⟩ depth cd pf
    generalize hSdef : (fetchObjectsRecursive sb r (fuel + 1) h
      (⟨[], [], []⟩ : FetchSt) depth cd pf).1 = S
    rw [hSdef] at hmem
    rw [fetchObjectsRecursive.eq_def, if_pos hmem]

/-- Claim C7 (counterexample).  The claim reads the filter as splitting
at the FIRST double star whenever one is present.  On the pattern
a*/**/b**c — which contains two double stars — the source falls back to
plain glob matching of the whole pattern, which accepts ax/q/bc, while
the claim's split-at-first reading demands the path literally start
with a* and rejects it. -/
theorem c7_counterexample :
    matchesFilter "ax/q/bc" "a*/**/b**c" = true
    ∧ claimMatchesFilter "ax/q/bc" "a*/**/b**c" = false := ⟨by decide, by decide⟩

/-- Claim C7 (amended).  The path filter is shell-style glob matching
extended so that when the pattern contains exactly one double star it
is split there into prefix and suffix — the path must start with the
prefix with trailing slashes stripped and, if a suffix exists, match
star-plus-suffix as a glob; patterns with no double star or with two
or more double stars use standard glob matching of the whole pattern
(in which a star also crosses slashes). -/
theorem c7_filter_amended (path fp : String) :
    matchesFilter path fp = amendedMatchesFilter path fp := by
  unfold matchesFilter amendedMatchesFilter containsDoubleStar
  rcases hsp : splitDoubleStar fp with _ | ⟨a, _ | ⟨b, _ | ⟨c, l⟩⟩⟩ <;>
    simp [hsp]

/-- Claim C8 (spec-modelled codec).  Building a packet from its fields
and unpacking the packed bytes yields the packet back, every field
equal including the checksum, and the checksum has the prescribed 16
characters.  The checksum function and the field widths are the spec's;
the bounds say the integers and string lengths fit their fixed 32-bit
wire widths. -/
theorem c8_pack_unpack_roundtrip (chk : List Nat → List Nat)
    (hchk : ∀ bs, (chk bs).length = 16) (pt : PacketType)
    (sid repo payload : List Nat) (seq tot : Nat)
    (hsid : sid.length < 4294967296) (hrepo : repo.length < 4294967296)
    (hseq : seq < 4294967296) (htot : tot < 4294967296) :
    unpackPacket chk (packPacket chk (mkPacketM chk pt sid repo seq tot payload))
      = .ok (mkPacketM chk pt sid repo seq tot payload)
    ∧ (mkPacketM chk pt sid repo seq tot payload).checksum.length = 16 := by
  constructor
  · have hmain := unpack_chk_body chk hchk (packetTypeByte pt) sid repo payload
      seq tot hsid hrepo hseq htot
    simp only [packPacket, mkPacketM]
    rw [hmain, packetTypeOfByte_packetTypeByte]
  · simp only [mkPacketM]
    exact hchk _

/-- Witness for claim C8 at a concrete DATA packet and the all-zero
stand-in checksum. -/
theorem c8_witness :
    unpackPacket chkZero (packPacket chkZero
        (mkPacketM chkZero PacketType.DATA [115, 49] [114] 5 10 [1, 2, 3]))
      = .ok (mkPacketM chkZero PacketType.DATA [115, 49] [114] 5 10 [1, 2, 3])
    ∧ (mkPacketM chkZero PacketType.DATA [115, 49] [114] 5 10 [1, 2, 3]).checksum.length
        = 16 :=
  c8_pack_unpack_roundtrip chkZero (fun bs => by simp [chkZero]) PacketType.DATA
    [115, 49] [114] [1, 2, 3] 5 10 (by decide) (by decide) (by decide) (by decide)

/-- Claim C9 (spec-modelled codec).  A datagram with a valid checksum
whose type byte encodes no known packet type unpacks successfully, and
the resulting packet's type is ERROR: unknown types are surfaced, not
rejected. -/
theorem c9_unknown_type_decodes_as_error (chk : List Nat → List Nat)
    (hchk : ∀ bs, (chk bs).length = 16) (b : Nat)
    (hb : ∀ pt : PacketType, packetTypeByte pt ≠ b)
    (sid repo payload : List Nat) (seq tot : Nat)
    (hsid : sid.length < 4294967296) (hrepo : repo.length < 4294967296)
    (hseq : seq < 4294967296) (htot : tot < 4294967296) :
    unpackPacket chk (chk (packetBody b sid repo seq tot payload)
        ++ packetBody b sid repo seq tot payload)
      = .ok ⟨PacketType.ERROR, sid, repo, seq, tot, payload,
          chk (packetBody b sid repo seq tot payload)⟩ := by
  rw [unpack_chk_body chk hchk b sid repo payload seq tot hsid hrepo hseq htot,
    packetTypeOfByte_unknown b hb]

/-- Witness for claim C9 at the type byte 255, which encodes no known
packet type. -/
theorem c9_witness :
    unpackPacket chkZero (chkZero (packetBody 255 [9] [8] 1 1 [7])
        ++ packetBody 255 [9] [8] 1 1 [7])
      = .ok ⟨PacketType.ERROR, [9], [8], 1, 1, [7],
          chkZero (packetBody 255 [9] [8] 1 1 [7])⟩ :=
  c9_unknown_type_decodes_as_error chkZero (fun bs => by simp [chkZero]) 255
    (fun pt => by cases pt <;> decide) [9] [8] [7] 1 1
    (by decide) (by decide) (by decide) (by decide)

/-- Claim C10.  When the remote is found, the handshake succeeds, the
remote branch resolves to a truthy commit hash and that hash equals the
local head commit, pull_from_remote returns True having issued no
object or block request, written no ref file and not restored the
working tree. -/
theorem c10_pull_up_to_date_noop (sb : String → Nat → String) (r : Remote)
    (refs : List (String × String)) (branch rc : String) (fuel : Nat)
    (hlook : lookupStr refs branch = some rc) (hrc : rc ≠ "") :
    pullFromRemote sb r true true refs branch (some rc) fuel =
      ⟨true, none, false, []⟩ := by
  simp [pullFromRemote, hlook, hrc]

/-- Witness for claim C10 at a one-branch refs mapping whose commit
matches the local head. -/
theorem c10_witness :
    pullFromRemote sbGood emptyRemote true true [("main", "C9")] "main"
        (some "C9") 3 = ⟨true, none, false, []⟩ :=
  c10_pull_up_to_date_noop sbGood emptyRemote [("main", "C9")] "main" "C9" 3
    (by decide) (by decide)
